import Mathlib

/-!
Verification of the task-list core of `src/components/TodoApp.tsx`.

The component keeps four pieces of React state (`tasks`, `newTaskText`,
`editingId`, `editingText`); we embed them as the fields of `AppState`.
Each handler of the component (`addTask`, `toggleTask`, `deleteTask`,
`startEditing`, `saveEdit`, `cancelEdit`) becomes a pure state
transformer.  Calls to `toast` are presentation only and have no state
effect, so they are dropped.  JavaScript `Date.now()` and `new Date()`
are modelled by an explicit millisecond timestamp `now : Nat` supplied
at each add; `Date.now().toString()` becomes `toString now`.
-/

namespace Todo

/-- Model of JavaScript `String.prototype.trim` on the character list of
a string: drop leading and trailing whitespace.  (Lean's own
`String.trim` is equivalent on ASCII input but is needlessly hard for
the kernel to evaluate, so the embedding uses this executable model.) -/
def trimChars (l : List Char) : List Char :=
  ((l.dropWhile Char.isWhitespace).reverse.dropWhile Char.isWhitespace).reverse

/-- Model of JavaScript `text.trim()`. -/
def jsTrim (s : String) : String :=
  ⟨trimChars s.data⟩

/-- A task record, from the `Task` interface of the source.  `createdAt`
is a `Date`, modelled as its millisecond timestamp. -/
structure Task where
  id : String
  text : String
  completed : Bool
  createdAt : Nat
deriving DecidableEq, Repr

/-- The component state: the four `useState` cells of `TodoApp`. -/
structure AppState where
  tasks : List Task
  newTaskText : String
  editingId : Option String
  editingText : String
deriving DecidableEq, Repr

/-- Initial `useState` values: `[]`, `''`, `null`, `''`. -/
def initState : AppState :=
  { tasks := [], newTaskText := "", editingId := none, editingText := "" }

/-- The `onChange` handler of the add input: `setNewTaskText(value)`. -/
def setNewTaskText (s : String) (st : AppState) : AppState :=
  { st with newTaskText := s }

/-- `addTask` from the source: if `newTaskText.trim()` is truthy (i.e. the
trimmed text is nonempty) a new task with `id = Date.now().toString()`,
trimmed text, `completed = false`, `createdAt = new Date()` is prepended
and the input is cleared; otherwise nothing happens. -/
def addTask (now : Nat) (st : AppState) : AppState :=
  if jsTrim st.newTaskText ≠ "" then
    { st with
      tasks := { id := toString now, text := jsTrim st.newTaskText,
                 completed := false, createdAt := now } :: st.tasks,
      newTaskText := "" }
  else st

/-- The user-level `add(text)` operation: type `text` into the input and
press Add, i.e. `setNewTaskText` followed by `addTask`. -/
def add (now : Nat) (text : String) (st : AppState) : AppState :=
  addTask now (setNewTaskText text st)

/-- `toggleTask` from the source: map over `tasks`, flipping `completed`
on every task whose `id` matches. -/
def toggleTask (i : String) (st : AppState) : AppState :=
  { st with
    tasks := st.tasks.map fun task =>
      if task.id = i then { task with completed := !task.completed } else task }

/-- `deleteTask` from the source: keep exactly the tasks whose `id`
differs. -/
def deleteTask (i : String) (st : AppState) : AppState :=
  { st with tasks := st.tasks.filter fun task => task.id ≠ i }

/-- `startEditing` from the source: stage an edit session. -/
def startEditing (i : String) (text : String) (st : AppState) : AppState :=
  { st with editingId := some i, editingText := text }

/-- The `onChange` handler of the edit input: `setEditingText(value)`. -/
def setEditingText (s : String) (st : AppState) : AppState :=
  { st with editingText := s }

/-- JavaScript truthiness of a `string | null` value such as
`editingId`: `null` and the empty string are falsy, every other string
is truthy. -/
def jsTruthy : Option String → Bool
  | none => false
  | some s => s ≠ ""

/-- `saveEdit` from the source: guarded by
`if (editingText.trim() && editingId)` — both conjuncts by JavaScript
truthiness, so the guard also fails when `editingId` is the empty
string.  When the guard holds, every task whose `id` equals `editingId`
gets the trimmed staged text, and the edit session is cleared.  When the
guard fails the handler returns without doing anything at all. -/
def saveEdit (st : AppState) : AppState :=
  if jsTrim st.editingText ≠ "" ∧ jsTruthy st.editingId then
    { st with
      tasks := st.tasks.map fun task =>
        if some task.id = st.editingId then { task with text := jsTrim st.editingText }
        else task,
      editingId := none, editingText := "" }
  else st

/-- `cancelEdit` from the source. -/
def cancelEdit (st : AppState) : AppState :=
  { st with editingId := none, editingText := "" }

/-!
Persistence.  The component's two effects are
`localStorage.setItem('todos', JSON.stringify(tasks))` (run after every
state change) and, on mount, `localStorage.getItem('todos')` followed by
`JSON.parse` and a map reviving `createdAt` with `new Date(...)`, the
whole parse wrapped in try/catch.

We model serialized values at the level of JSON values.  A stored slot
is `absent` (no string under the key), `malformed` (a string that
`JSON.parse` rejects), or `json j` (a string that parses to the value
`j`).  `JSON.stringify` of a `Date` goes through `Date.prototype.toJSON`
and yields the ISO-8601 rendering of the timestamp; that rendering is
injective at millisecond precision, so the constructor `Json.date ms`
stands for the JSON string holding the ISO-8601 form of `ms`.
-/

/-- JSON values, the image of `JSON.parse` on well-formed input.
`date ms` is the JSON string holding the ISO-8601 rendering of the
millisecond timestamp `ms` (see the section comment). -/
inductive Json where
  | null
  | bool (b : Bool)
  | num (n : Nat)
  | str (s : String)
  | date (ms : Nat)
  | arr (elems : List Json)
  | obj (fields : List (String × Json))

/-- One slot of `localStorage`: empty, holding a string `JSON.parse`
rejects, or holding a string that parses to a JSON value. -/
inductive Stored where
  | absent
  | malformed
  | json (j : Json)

/-- Key lookup in a JSON object's field list (JavaScript property
access). -/
def lookupKey : List (String × Json) → String → Option Json
  | [], _ => none
  | (k, v) :: rest, key => if k = key then some v else lookupKey rest key

/-- JavaScript property access `j[key]`: `none` models `undefined`. -/
def getField : Json → String → Option Json
  | Json.obj fields, key => lookupKey fields key
  | _, _ => none

/-- `JSON.stringify` applied to one task: an object with the four fields
of the `Task` interface, `createdAt` rendered through
`Date.prototype.toJSON` as an ISO-8601 string. -/
def encodeTask (t : Task) : Json :=
  Json.obj [("id", Json.str t.id), ("text", Json.str t.text),
            ("completed", Json.bool t.completed),
            ("createdAt", Json.date t.createdAt)]

/-- Model of `new Date(x)` applied to a parsed `createdAt` value: an
ISO-8601 string or a number recovers its timestamp; anything else gives
an `Invalid Date`, represented by the default timestamp `0`. -/
def reviveDate : Option Json → Nat
  | some (Json.date ms) => ms
  | some (Json.num n) => n
  | _ => 0

/-- The load-effect's per-element map
`task => ({ ...task, createdAt: new Date(task.createdAt) })`, read back
into the typed `Task` record.  JavaScript applies no validation here; on
a well-formed element (the image of `encodeTask`) this is exact, and on
junk elements the defaults stand for the `undefined`/mistyped fields of
the untyped object JavaScript would produce. -/
def taskOfJson (j : Json) : Task :=
  { id := match getField j "id" with
      | some (Json.str s) => s
      | _ => ""
    text := match getField j "text" with
      | some (Json.str s) => s
      | _ => ""
    completed := match getField j "completed" with
      | some (Json.bool b) => b
      | _ => false
    createdAt := reviveDate (getField j "createdAt") }

/-- The mount effect of `TodoApp` reading the stored tasks.  `absent`:
the `if (savedTasks)` guard fails and `tasks` stays `[]`.  `malformed`:
`JSON.parse` throws, the catch logs, `tasks` stays `[]`.  A parsed value
that is not an array has no `.map` method, so the revival map throws a
`TypeError` inside the same try block: `tasks` stays `[]`.  An array is
mapped elementwise.  The function is total: no failure escapes to the
caller. -/
def load : Stored → List Task
  | Stored.absent => []
  | Stored.malformed => []
  | Stored.json (Json.arr elems) => elems.map taskOfJson
  | Stored.json _ => []

/-- The fixed storage key of both effects. -/
def storageKey : String := "todos"

/-- `JSON.stringify(tasks)`: the serialized full sequence. -/
def save (tasks : List Task) : Stored :=
  Stored.json (Json.arr (tasks.map encodeTask))

/-- The save effect `localStorage.setItem('todos', JSON.stringify(tasks))`
acting on the whole store: the slot under `storageKey` is overwritten
unconditionally, every other key untouched. -/
def saveTo (store : String → Stored) (tasks : List Task) : String → Stored :=
  fun k => if k = storageKey then save tasks else store k

/-- The load effect reading from the whole store under `storageKey`. -/
def loadFrom (store : String → Stored) : List Task :=
  load (store storageKey)

/-!
Operation sequences.  For claims quantifying over interleaved user
actions we close the six handlers (plus the two input `onChange`
handlers folded into `add`/`setEditText`) under sequencing.
-/

/-- One user action on the component.  `add now text` is typing `text`
and pressing Add at clock value `now`; `commitEdit` is pressing Save. -/
inductive Op where
  | add (now : Nat) (text : String)
  | toggle (i : String)
  | del (i : String)
  | startEdit (i : String) (text : String)
  | setEditText (text : String)
  | commitEdit
  | cancel

/-- Dispatch one action to the corresponding handler. -/
def applyOp (o : Op) (st : AppState) : AppState :=
  match o with
  | Op.add now text => addTask now (setNewTaskText text st)
  | Op.toggle i => toggleTask i st
  | Op.del i => deleteTask i st
  | Op.startEdit i text => startEditing i text st
  | Op.setEditText text => setEditingText text st
  | Op.commitEdit => saveEdit st
  | Op.cancel => cancelEdit st

/-- Run a sequence of actions from a state. -/
def run (st : AppState) : List Op → AppState
  | [] => st
  | o :: ops => run (applyOp o st) ops

/-- The ids of the tasks currently held by the store. -/
def taskIds (st : AppState) : List String :=
  st.tasks.map Task.id

/-- The ids `Date.now().toString()` that the adds of a sequence would
generate (every add listed, whether or not its text survives the trim
check). -/
def addIds : List Op → List String
  | [] => []
  | Op.add now _ :: ops => toString now :: addIds ops
  | _ :: ops => addIds ops

end Todo

namespace Todo

/-- Mapping a function that fixes every element of a list is the
identity. -/
lemma map_fix {α : Type} (f : α → α) (l : List α) (h : ∀ a ∈ l, f a = a) :
    l.map f = l := by
  induction l with
  | nil => rfl
  | cons a l ih =>
    rw [List.map_cons, h a (List.mem_cons_self a l),
      ih fun b hb => h b (List.mem_cons_of_mem a hb)]

/-- Decoding inverts encoding on every task record. -/
lemma taskOfJson_encodeTask (t : Task) : taskOfJson (encodeTask t) = t := rfl

/-- `toggleTask` preserves the id list. -/
lemma taskIds_toggleTask (i : String) (st : AppState) :
    taskIds (toggleTask i st) = taskIds st := by
  simp only [taskIds, toggleTask, List.map_map]
  refine List.map_eq_map_iff.mpr fun t _ => ?_
  by_cases h : t.id = i <;> simp [Function.comp, h]

/-- `saveEdit` preserves the id list. -/
lemma taskIds_saveEdit (st : AppState) :
    taskIds (saveEdit st) = taskIds st := by
  unfold saveEdit
  split
  · simp only [taskIds, List.map_map]
    refine List.map_eq_map_iff.mpr fun t _ => ?_
    by_cases h : some t.id = st.editingId <;> simp [Function.comp, h]
  · rfl

/-- `deleteTask` keeps a sub-list of the ids. -/
lemma taskIds_deleteTask_sublist (i : String) (st : AppState) :
    List.Sublist (taskIds (deleteTask i st)) (taskIds st) :=
  (List.filter_sublist st.tasks).map Task.id

/-- Invariant behind C1: running any action sequence whose generated add
ids avoid the current store and are mutually distinct keeps the stored
ids pairwise distinct. -/
lemma run_taskIds_nodup :
    ∀ (ops : List Op) (st : AppState),
      (addIds ops).Nodup → (taskIds st).Nodup →
      (∀ s ∈ addIds ops, s ∉ taskIds st) →
      (taskIds (run st ops)).Nodup := by
  intro ops
  induction ops with
  | nil => intro st _ h2 _; exact h2
  | cons o ops ih =>
    intro st h1 h2 h3
    cases o with
    | add now text =>
      have hmp := List.nodup_cons.mp (by simpa [addIds] using h1)
      have hnotin : toString now ∉ addIds ops := hmp.1
      have h1' : (addIds ops).Nodup := hmp.2
      simp only [run, applyOp]
      by_cases hne : jsTrim text = ""
      · have hids : taskIds (addTask now (setNewTaskText text st)) = taskIds st := by
          simp [taskIds, addTask, setNewTaskText, hne]
        apply ih _ h1'
        · rw [hids]; exact h2
        · intro s hs
          rw [hids]
          exact h3 s (List.mem_cons_of_mem _ hs)
      · have hids : taskIds (addTask now (setNewTaskText text st))
            = toString now :: taskIds st := by
          simp [taskIds, addTask, setNewTaskText, hne]
        apply ih _ h1'
        · rw [hids]
          exact List.nodup_cons.mpr ⟨h3 _ (List.mem_cons_self _ _), h2⟩
        · intro s hs
          rw [hids]
          intro hmem
          rcases List.mem_cons.mp hmem with h | h
          · exact hnotin (h ▸ hs)
          · exact h3 s (List.mem_cons_of_mem _ hs) h
    | toggle i =>
      simp only [run, applyOp]
      exact ih _ h1 (by rw [taskIds_toggleTask]; exact h2)
        fun s hs => by rw [taskIds_toggleTask]; exact h3 s hs
    | del i =>
      simp only [run, applyOp]
      have hsub := taskIds_deleteTask_sublist i st
      exact ih _ h1 (hsub.nodup h2) fun s hs hmem => h3 s hs (hsub.subset hmem)
    | startEdit i text =>
      simp only [run, applyOp]
      exact ih _ h1 h2 h3
    | setEditText text =>
      simp only [run, applyOp]
      exact ih _ h1 h2 h3
    | commitEdit =>
      simp only [run, applyOp]
      exact ih _ h1 (by rw [taskIds_saveEdit]; exact h2)
        fun s hs => by rw [taskIds_saveEdit]; exact h3 s hs
    | cancel =>
      simp only [run, applyOp]
      exact ih _ h1 h2 h3

end Todo

namespace Todo

/-- C1, counterexample: ids are generated as `Date.now().toString()`, so
two adds answered by the same millisecond clock value (here `5`) assign
the identical id `"5"` to both tasks; the ids held by the store are then
not pairwise distinct, refuting the claim as stated. -/
theorem c1_counterexample_same_millisecond :
    taskIds (run initState [Op.add 5 "a", Op.add 5 "b"]) = ["5", "5"] ∧
    ¬ (taskIds (run initState [Op.add 5 "a", Op.add 5 "b"])).Nodup := by
  refine ⟨by decide, by decide⟩

/-- C1, amended: for every sequence of add operations (with any
interleaved toggle/edit/delete operations), provided the
`Date.now().toString()` values generated at the adds are pairwise
distinct — as they are whenever the millisecond clock strictly
increases between adds — the ids of the tasks currently held by the
store are pairwise distinct. -/
theorem c1_ids_pairwise_distinct (ops : List Op) (h : (addIds ops).Nodup) :
    (taskIds (run initState ops)).Nodup :=
  run_taskIds_nodup ops initState h (by simp [initState, taskIds])
    fun s _ => by simp [initState, taskIds]

/-- C1, witness: a concrete run with distinct clock values at the adds
and interleaved toggle/delete, whose stored ids are pairwise distinct. -/
theorem c1_ids_pairwise_distinct_witness :
    (addIds [Op.add 1 "a", Op.toggle "1", Op.add 2 "b", Op.del "1",
      Op.add 3 "c"]).Nodup ∧
    (taskIds (run initState [Op.add 1 "a", Op.toggle "1", Op.add 2 "b",
      Op.del "1", Op.add 3 "c"])).Nodup :=
  ⟨by decide, c1_ids_pairwise_distinct
    [Op.add 1 "a", Op.toggle "1", Op.add 2 "b", Op.del "1", Op.add 3 "c"]
    (by decide)⟩

/-- C2, counterexample: with an active edit session on the existing task
`"1"` and staged text `"  "` (blank after trim), `saveEdit` leaves
`editingId` at `some "1"`, while `cancelEdit` would clear it to `none`:
the edit-session state is not cleared the way the claim states. -/
theorem c2_counterexample_session_not_cleared :
    jsTrim "  " = "" ∧
    (saveEdit { tasks := [⟨"1", "a", false, 0⟩], newTaskText := "",
                editingId := some "1", editingText := "  " }).editingId
      = some "1" ∧
    (cancelEdit { tasks := [⟨"1", "a", false, 0⟩], newTaskText := "",
                  editingId := some "1", editingText := "  " }).editingId
      = none := by
  refine ⟨by decide, by decide, by decide⟩

/-- C2, amended: with an active edit session on an existing task, if the
submitted text trims to the empty string then `commitEdit` is a complete
no-op: the task collection is unchanged (the task keeps its original
text) and the edit-session state `editingId`/`editingText` is also left
exactly as it was — the session stays active; it is not cleared the way
`cancelEdit` would clear it. -/
theorem c2_commitEdit_blank_noop (st : AppState) (i : String)
    (hi : st.editingId = some i) (hmem : ∃ t ∈ st.tasks, t.id = i)
    (h : jsTrim st.editingText = "") : saveEdit st = st := by
  unfold saveEdit
  exact if_neg fun hc => hc.1 h

/-- C2, witness: a concrete active edit session with blank staged text
on which `saveEdit` returns the state unchanged. -/
theorem c2_commitEdit_blank_noop_witness :
    ({ tasks := [⟨"1", "a", false, 0⟩], newTaskText := "",
       editingId := some "1", editingText := "  " } : AppState).editingId
      = some "1" ∧
    jsTrim "  " = "" ∧
    saveEdit { tasks := [⟨"1", "a", false, 0⟩], newTaskText := "",
               editingId := some "1", editingText := "  " }
      = { tasks := [⟨"1", "a", false, 0⟩], newTaskText := "",
          editingId := some "1", editingText := "  " } :=
  ⟨by decide, by decide,
    c2_commitEdit_blank_noop
      { tasks := [⟨"1", "a", false, 0⟩], newTaskText := "",
        editingId := some "1", editingText := "  " }
      "1" (by decide) ⟨⟨"1", "a", false, 0⟩, by decide⟩ (by decide)⟩

/-- C3: for every state and every input text whose trim is empty,
`add(text)` leaves the task collection unchanged. -/
theorem c3_add_blank_noop (st : AppState) (now : Nat) (text : String)
    (h : jsTrim text = "") : (add now text st).tasks = st.tasks := by
  simp [add, addTask, setNewTaskText, h]

/-- C3, witness: adding `"   "` to a one-task store changes nothing. -/
theorem c3_add_blank_noop_witness :
    jsTrim "   " = "" ∧
    (add 9 "   " { tasks := [⟨"1", "a", false, 0⟩], newTaskText := "",
                   editingId := none, editingText := "" }).tasks
      = [⟨"1", "a", false, 0⟩] :=
  ⟨by decide,
    c3_add_blank_noop
      { tasks := [⟨"1", "a", false, 0⟩], newTaskText := "",
        editingId := none, editingText := "" } 9 "   " (by decide)⟩

/-- C4: for every state and every input text whose trim is non-empty,
`add(text)` prepends a task with id `Date.now().toString()`, the trimmed
text, `completed = false` and `createdAt = now`, leaving all previously
held tasks unchanged and in their prior relative order. -/
theorem c4_add_prepends (st : AppState) (now : Nat) (text : String)
    (h : jsTrim text ≠ "") :
    (add now text st).tasks
      = { id := toString now, text := jsTrim text, completed := false,
          createdAt := now } :: st.tasks := by
  simp [add, addTask, setNewTaskText, h]

/-- C4, witness: adding `" b "` at clock value 7 prepends the task
`⟨"7", "b", false, 7⟩` to the existing collection. -/
theorem c4_add_prepends_witness :
    jsTrim " b " ≠ "" ∧
    (add 7 " b " { tasks := [⟨"1", "a", false, 0⟩], newTaskText := "",
                   editingId := none, editingText := "" }).tasks
      = [⟨"7", "b", false, 7⟩, ⟨"1", "a", false, 0⟩] :=
  ⟨by decide,
    c4_add_prepends
      { tasks := [⟨"1", "a", false, 0⟩], newTaskText := "",
        editingId := none, editingText := "" } 7 " b " (by decide)⟩

/-- C5: for every state and every id present in the collection, toggling
that id twice returns the whole state — in particular the matching
task's `completed` flag and the whole collection — to its original
value. -/
theorem c5_toggle_involution (st : AppState) (i : String)
    (hmem : ∃ t ∈ st.tasks, t.id = i) :
    toggleTask i (toggleTask i st) = st := by
  obtain ⟨tasks, nt, ei, et⟩ := st
  simp only [toggleTask, List.map_map, AppState.mk.injEq, and_self, and_true]
  apply map_fix
  intro t _
  obtain ⟨tid, ttext, tc, tca⟩ := t
  by_cases h : tid = i <;> simp [Function.comp, h]

/-- C5, witness: toggling the present id `"1"` twice on a concrete
two-task store restores the original state. -/
theorem c5_toggle_involution_witness :
    (∃ t ∈ ({ tasks := [⟨"1", "a", false, 0⟩, ⟨"2", "b", true, 1⟩],
              newTaskText := "", editingId := none,
              editingText := "" } : AppState).tasks, t.id = "1") ∧
    toggleTask "1" (toggleTask "1"
        { tasks := [⟨"1", "a", false, 0⟩, ⟨"2", "b", true, 1⟩],
          newTaskText := "", editingId := none, editingText := "" })
      = { tasks := [⟨"1", "a", false, 0⟩, ⟨"2", "b", true, 1⟩],
          newTaskText := "", editingId := none, editingText := "" } :=
  ⟨by decide,
    c5_toggle_involution
      { tasks := [⟨"1", "a", false, 0⟩, ⟨"2", "b", true, 1⟩],
        newTaskText := "", editingId := none, editingText := "" }
      "1" (by decide)⟩

end Todo

namespace Todo

/-- C6: for every state and every id matching no task, `toggleTask` and
`deleteTask` leave the state unchanged; and for every id at all,
deleting it twice equals deleting it once (the second call is a no-op,
since the first leaves no matching task). -/
theorem c6_missing_id_noop (st : AppState) (i j : String)
    (h : ∀ t ∈ st.tasks, t.id ≠ i) :
    toggleTask i st = st ∧ deleteTask i st = st ∧
    deleteTask j (deleteTask j st) = deleteTask j st := by
  obtain ⟨tasks, nt, ei, et⟩ := st
  refine ⟨?_, ?_, ?_⟩
  · simp only [toggleTask, AppState.mk.injEq, and_self, and_true]
    exact map_fix _ tasks fun t ht => if_neg (by simpa using h t ht)
  · simp only [deleteTask, AppState.mk.injEq, and_self, and_true]
    exact List.filter_eq_self.mpr fun t ht => decide_eq_true (h t ht)
  · simp only [deleteTask, AppState.mk.injEq, and_self, and_true]
    exact List.filter_eq_self.mpr fun t ht => (List.mem_filter.mp ht).2

/-- C6, witness: id `"9"` matches nothing in a concrete two-task store,
so toggle and delete of `"9"` are no-ops and deleting `"1"` twice equals
deleting it once. -/
theorem c6_missing_id_noop_witness :
    (∀ t ∈ ({ tasks := [⟨"1", "a", false, 0⟩, ⟨"2", "b", true, 1⟩],
              newTaskText := "", editingId := none,
              editingText := "" } : AppState).tasks, t.id ≠ "9") ∧
    (toggleTask "9"
        { tasks := [⟨"1", "a", false, 0⟩, ⟨"2", "b", true, 1⟩],
          newTaskText := "", editingId := none, editingText := "" }
      = { tasks := [⟨"1", "a", false, 0⟩, ⟨"2", "b", true, 1⟩],
          newTaskText := "", editingId := none, editingText := "" } ∧
    deleteTask "9"
        { tasks := [⟨"1", "a", false, 0⟩, ⟨"2", "b", true, 1⟩],
          newTaskText := "", editingId := none, editingText := "" }
      = { tasks := [⟨"1", "a", false, 0⟩, ⟨"2", "b", true, 1⟩],
          newTaskText := "", editingId := none, editingText := "" } ∧
    deleteTask "1" (deleteTask "1"
        { tasks := [⟨"1", "a", false, 0⟩, ⟨"2", "b", true, 1⟩],
          newTaskText := "", editingId := none, editingText := "" })
      = deleteTask "1"
          { tasks := [⟨"1", "a", false, 0⟩, ⟨"2", "b", true, 1⟩],
            newTaskText := "", editingId := none, editingText := "" }) :=
  ⟨by decide,
    c6_missing_id_noop
      { tasks := [⟨"1", "a", false, 0⟩, ⟨"2", "b", true, 1⟩],
        newTaskText := "", editingId := none, editingText := "" }
      "9" "1" (by decide)⟩

/-- C7, counterexample: the guard `if (editingText.trim() && editingId)`
treats the empty string as falsy, so with an edit session staged on the
empty id — reachable for a task whose stored record had no string id —
`saveEdit` is a complete no-op even though the staged text `"x"` trims
non-empty: the task's text is not replaced and the session is not
cleared, refuting the claim as stated at this input. -/
theorem c7_counterexample_empty_id :
    jsTrim "x" ≠ "" ∧
    saveEdit { tasks := [⟨"", "a", false, 0⟩], newTaskText := "",
               editingId := some "", editingText := "x" }
      = { tasks := [⟨"", "a", false, 0⟩], newTaskText := "",
          editingId := some "", editingText := "x" } ∧
    (saveEdit { tasks := [⟨"", "a", false, 0⟩], newTaskText := "",
                editingId := some "", editingText := "x" }).editingId
      ≠ none := by
  refine ⟨by decide, by decide, by decide⟩

/-- C7, amended: with an active edit session on a task whose id is
non-empty (a truthy id in the JavaScript sense) and occurs exactly once,
if the staged text trims non-empty then `saveEdit` replaces only that
task's `text` with the trimmed value — its `id`, `completed` and
`createdAt` are kept — while every other task, the collection order, and
`newTaskText` are unchanged, and the edit session is cleared. -/
theorem c7_commitEdit_frame (st : AppState) (i : String) (pre post : List Task)
    (t : Task) (hi : st.editingId = some i) (hine : i ≠ "")
    (hne : jsTrim st.editingText ≠ "")
    (hs : st.tasks = pre ++ t :: post) (ht : t.id = i)
    (hpre : ∀ u ∈ pre, u.id ≠ i) (hpost : ∀ u ∈ post, u.id ≠ i) :
    saveEdit st
      = { tasks := pre ++ { t with text := jsTrim st.editingText } :: post,
          newTaskText := st.newTaskText, editingId := none,
          editingText := "" } := by
  unfold saveEdit
  rw [if_pos ⟨hne, by rw [hi]; exact decide_eq_true hine⟩, hs, hi,
    List.map_append, List.map_cons,
    map_fix _ pre fun u hu => if_neg fun hc => hpre u hu (Option.some.inj hc),
    map_fix _ post fun u hu => if_neg fun hc => hpost u hu (Option.some.inj hc),
    if_pos (show some t.id = some i by rw [ht])]

/-- C7, witness: committing the staged text `" bb "` on the middle task
`"2"` of a concrete three-task store rewrites exactly that task's text
to `"bb"` and clears the session. -/
theorem c7_commitEdit_frame_witness :
    ({ tasks := [⟨"1", "a", false, 0⟩, ⟨"2", "b", true, 1⟩,
                 ⟨"3", "c", false, 2⟩],
       newTaskText := "x", editingId := some "2",
       editingText := " bb " } : AppState).editingId = some "2" ∧
    ("2" : String) ≠ "" ∧
    jsTrim " bb " ≠ "" ∧
    saveEdit { tasks := [⟨"1", "a", false, 0⟩, ⟨"2", "b", true, 1⟩,
                         ⟨"3", "c", false, 2⟩],
               newTaskText := "x", editingId := some "2",
               editingText := " bb " }
      = { tasks := [⟨"1", "a", false, 0⟩, ⟨"2", "bb", true, 1⟩,
                    ⟨"3", "c", false, 2⟩],
          newTaskText := "x", editingId := none, editingText := "" } :=
  ⟨by decide, by decide, by decide,
    c7_commitEdit_frame
      { tasks := [⟨"1", "a", false, 0⟩, ⟨"2", "b", true, 1⟩,
                  ⟨"3", "c", false, 2⟩],
        newTaskText := "x", editingId := some "2", editingText := " bb " }
      "2" [⟨"1", "a", false, 0⟩] [⟨"3", "c", false, 2⟩] ⟨"2", "b", true, 1⟩
      (by decide) (by decide) (by decide) (by decide) (by decide) (by decide)
      (by decide)⟩

/-- C8: the load effect never surfaces a failure: it is a total
function, it yields the empty sequence when the slot is absent, when the
stored string fails `JSON.parse`, and when the parsed value is not an
array (the revival map throws inside the same try block); and on every
well-formed stored collection it reconstructs each task, in particular
reviving `createdAt` into its semantic timestamp. -/
theorem c8_load_masks_failures (j : Json) (hj : ∀ xs, j ≠ Json.arr xs)
    (ts : List Task) :
    load Stored.absent = [] ∧ load Stored.malformed = [] ∧
    load (Stored.json j) = [] ∧
    load (Stored.json (Json.arr (ts.map encodeTask))) = ts := by
  refine ⟨rfl, rfl, ?_, ?_⟩
  · cases j with
    | arr xs => exact absurd rfl (hj xs)
    | null => rfl
    | bool b => rfl
    | num n => rfl
    | str s => rfl
    | date ms => rfl
    | obj fields => rfl
  · show (ts.map encodeTask).map taskOfJson = ts
    rw [List.map_map]
    exact map_fix _ ts fun t _ => taskOfJson_encodeTask t

/-- C8, witness: the number `3` (a parsed value with no `.map`) loads as
the empty sequence, as do the absent and malformed slots, and a concrete
encoded one-task collection loads back exactly, `createdAt` included. -/
theorem c8_load_masks_failures_witness :
    load Stored.absent = [] ∧ load Stored.malformed = [] ∧
    load (Stored.json (Json.num 3)) = [] ∧
    load (Stored.json (Json.arr
      (([⟨"1", "a", false, 5⟩] : List Task).map encodeTask)))
      = [⟨"1", "a", false, 5⟩] :=
  c8_load_masks_failures (Json.num 3) (fun xs h => Json.noConfusion h)
    [⟨"1", "a", false, 5⟩]

/-- C9: the persistence round-trip: saving any task sequence under the
fixed storage key and loading it back through the same key yields the
sequence exactly (timestamp revival is exact at the millisecond
precision of the serialized form), for any prior store content. -/
theorem c9_load_save_roundtrip (store : String → Stored) (tasks : List Task) :
    loadFrom (saveTo store tasks) = tasks := by
  show load (if storageKey = storageKey then save tasks else store storageKey)
      = tasks
  rw [if_pos rfl]
  show (tasks.map encodeTask).map taskOfJson = tasks
  rw [List.map_map]
  exact map_fix _ tasks fun t _ => taskOfJson_encodeTask t

/-- C10: when two or more tasks share an id, the operations act
uniformly on all matches: `toggleTask` flips `completed` at every
position whose task matches (and only there), and `deleteTask` keeps the
non-matching tasks in order (a sub-list) while no matching task
survives. -/
theorem c10_duplicate_ids_uniform (st : AppState) (i : String)
    (h : 2 ≤ (st.tasks.filter fun t => t.id = i).length) :
    (∀ k : Nat, (toggleTask i st).tasks[k]?
        = st.tasks[k]?.map fun t =>
            if t.id = i then { t with completed := !t.completed } else t) ∧
    List.Sublist (deleteTask i st).tasks st.tasks ∧
    (∀ t ∈ (deleteTask i st).tasks, t.id ≠ i) ∧
    (∀ t ∈ st.tasks, t.id ≠ i → t ∈ (deleteTask i st).tasks) := by
  refine ⟨?_, ?_, ?_, ?_⟩
  · intro k
    exact List.getElem?_map _ st.tasks k
  · exact List.filter_sublist st.tasks
  · intro t ht
    simpa using (List.mem_filter.mp ht).2
  · intro t ht hne
    exact List.mem_filter.mpr ⟨ht, by simpa using hne⟩

/-- C10, witness: a store holding two tasks that both carry id `"1"`,
on which the uniform-action characterization holds. -/
theorem c10_duplicate_ids_uniform_witness :
    2 ≤ (({ tasks := [⟨"1", "a", false, 0⟩, ⟨"1", "b", false, 1⟩],
            newTaskText := "", editingId := none,
            editingText := "" } : AppState).tasks.filter
          fun t => t.id = "1").length ∧
    ((∀ k : Nat, (toggleTask "1"
          { tasks := [⟨"1", "a", false, 0⟩, ⟨"1", "b", false, 1⟩],
            newTaskText := "", editingId := none, editingText := "" }).tasks[k]?
        = ({ tasks := [⟨"1", "a", false, 0⟩, ⟨"1", "b", false, 1⟩],
             newTaskText := "", editingId := none,
             editingText := "" } : AppState).tasks[k]?.map fun t =>
            if t.id = "1" then { t with completed := !t.completed } else t) ∧
    List.Sublist (deleteTask "1"
        { tasks := [⟨"1", "a", false, 0⟩, ⟨"1", "b", false, 1⟩],
          newTaskText := "", editingId := none, editingText := "" }).tasks
      ({ tasks := [⟨"1", "a", false, 0⟩, ⟨"1", "b", false, 1⟩],
         newTaskText := "", editingId := none,
         editingText := "" } : AppState).tasks ∧
    (∀ t ∈ (deleteTask "1"
        { tasks := [⟨"1", "a", false, 0⟩, ⟨"1", "b", false, 1⟩],
          newTaskText := "", editingId := none,
          editingText := "" }).tasks, t.id ≠ "1") ∧
    (∀ t ∈ ({ tasks := [⟨"1", "a", false, 0⟩, ⟨"1", "b", false, 1⟩],
              newTaskText := "", editingId := none,
              editingText := "" } : AppState).tasks, t.id ≠ "1" →
        t ∈ (deleteTask "1"
          { tasks := [⟨"1", "a", false, 0⟩, ⟨"1", "b", false, 1⟩],
            newTaskText := "", editingId := none,
            editingText := "" }).tasks)) :=
  ⟨by decide,
    c10_duplicate_ids_uniform
      { tasks := [⟨"1", "a", false, 0⟩, ⟨"1", "b", false, 1⟩],
        newTaskText := "", editingId := none, editingText := "" }
      "1" (by decide)⟩

end Todo
